import Mathlib

/-!
Verification of the rate-limiting subsystem of `go-obvious/server`.

Shallow embedding of `internal/middleware/ratelimit/ratelimit.go`.

Conventions of the embedding:
* Go `time.Time` and `time.Duration` values are `ℤ`, counted in nanoseconds
  (Go durations are `int64` nanoseconds; the claims never exercise overflow).
* Go `float64` token arithmetic is embedded as exact `ℚ` arithmetic; the
  constants involved in the claims are exactly representable, so the branch
  structure is unchanged.
* Go maps `map[string]*T` are embedded as `String → Option T`; in-place
  mutation becomes explicit state passing.
* A Go `float64 → int64` conversion truncates toward zero, embedded as
  `goTrunc`.
-/

namespace RateLimit

/-- Functional update of a `String`-keyed map, modelling `m[key] = v`. -/
def mapInsert {α : Type} (m : String → Option α) (k : String) (v : α) :
    String → Option α :=
  fun k' => if k' = k then some v else m k'

/-- Functional removal from a `String`-keyed map, modelling `delete(m, key)`. -/
def mapErase {α : Type} (m : String → Option α) (k : String) :
    String → Option α :=
  fun k' => if k' = k then none else m k'

/-- Go's `float64 → int64` conversion truncates toward zero. -/
def goTrunc (q : ℚ) : ℤ := if 0 ≤ q then ⌊q⌋ else ⌈q⌉

/-- Per-key token-bucket state (`type tokenBucket struct`, ratelimit.go:57-60):
`tokens float64`, `lastSeen time.Time`. -/
structure tokenBucket where
  tokens : ℚ
  lastSeen : ℤ
  deriving DecidableEq

/-- Go type `TokenBucketLimiter` (ratelimit.go:49-55).  The mutex is a
concurrency artefact with no effect on the sequential semantics and is not
modelled. -/
structure TokenBucketLimiter where
  buckets : String → Option tokenBucket
  rate : ℚ
  capacity : ℤ
  window : ℤ

/-- Constructor `NewTokenBucketLimiter` (ratelimit.go:63-76).
`rate := float64(requests) / window.Seconds()`; `capacity := burst`, replaced
by `requests` when `capacity <= 0`. -/
def NewTokenBucketLimiter (requests window burst : ℤ) : TokenBucketLimiter :=
  { buckets := fun _ => none
    rate := (requests : ℚ) / ((window : ℚ) / 1000000000)
    capacity := if burst ≤ 0 then requests else burst
    window := window }

/-- The refilled, capacity-clamped token count computed by
`TokenBucketLimiter.Allow` before the admission branch (ratelimit.go:85-99):
the bucket defaults to a full one for an unseen key, then gains
`elapsedSeconds * rate` tokens, clamped at `capacity`. -/
def refilledTokens (tbl : TokenBucketLimiter) (key : String) (now : ℤ) : ℚ :=
  let bucket := (tbl.buckets key).getD { tokens := (tbl.capacity : ℚ), lastSeen := now }
  let tokens := bucket.tokens + ((now - bucket.lastSeen : ℤ) : ℚ) / 1000000000 * tbl.rate
  if tokens > (tbl.capacity : ℚ) then (tbl.capacity : ℚ) else tokens

/-- Method `TokenBucketLimiter.Allow` (ratelimit.go:78-115).  Returns the successor
state plus the Go return value `(allowed, waitTime)`.  The wait-time
computation is `time.Duration(tokensNeeded/rate*1000) * time.Millisecond`
(a truncation toward zero at millisecond granularity), clamped to a minimum
of one millisecond when `<= 0`. -/
def TokenBucketLimiter.Allow (tbl : TokenBucketLimiter) (key : String) (now : ℤ) :
    TokenBucketLimiter × Bool × ℤ :=
  let tokens := refilledTokens tbl key now
  if tokens ≥ 1 then
    ({ tbl with buckets := mapInsert tbl.buckets key { tokens := tokens - 1, lastSeen := now } },
     true, 0)
  else
    let tokensNeeded := 1 - tokens
    let waitTime := goTrunc (tokensNeeded / tbl.rate * 1000) * 1000000
    let waitTime := if waitTime ≤ 0 then 1000000 else waitTime
    ({ tbl with buckets := mapInsert tbl.buckets key { tokens := tokens, lastSeen := now } },
     false, waitTime)

/-- Method `TokenBucketLimiter.Reset` (ratelimit.go:117-121): `delete(tbl.buckets, key)`. -/
def TokenBucketLimiter.Reset (tbl : TokenBucketLimiter) (key : String) : TokenBucketLimiter :=
  { tbl with buckets := mapErase tbl.buckets key }

/-- Per-key sliding-window state (`type slidingWindow struct`, ratelimit.go:131-133). -/
structure slidingWindow where
  timestamps : List ℤ
  deriving DecidableEq

/-- Go type `SlidingWindowLimiter` (ratelimit.go:124-129). -/
structure SlidingWindowLimiter where
  windows : String → Option slidingWindow
  requests : ℤ
  window : ℤ

/-- Constructor `NewSlidingWindowLimiter` (ratelimit.go:136-142). -/
def NewSlidingWindowLimiter (requests window : ℤ) : SlidingWindowLimiter :=
  { windows := fun _ => none
    requests := requests
    window := window }

/-- Method `SlidingWindowLimiter.Allow` (ratelimit.go:144-177).  Prunes timestamps
`ts` with `ts.After(cutoff)` false (`cutoff = now - window`), admits and
appends `now` while fewer than `requests` remain, else denies with
`waitTime = window - (now - timestamps[0])`.  (On an empty pruned list Go
would panic at `timestamps[0]`; that index is reachable only when
`requests ≤ 0`, which the validated configuration excludes; the embedding
uses `headD 0` there.) -/
def SlidingWindowLimiter.Allow (swl : SlidingWindowLimiter) (key : String) (now : ℤ) :
    SlidingWindowLimiter × Bool × ℤ :=
  let w := (swl.windows key).getD { timestamps := [] }
  let cutoff := now - swl.window
  let valid := w.timestamps.filter (fun ts => cutoff < ts)
  if (valid.length : ℤ) < swl.requests then
    ({ swl with windows := mapInsert swl.windows key { timestamps := valid ++ [now] } }, true, 0)
  else
    let oldestTime := valid.headD 0
    ({ swl with windows := mapInsert swl.windows key { timestamps := valid } },
     false, swl.window - (now - oldestTime))

/-- Method `SlidingWindowLimiter.Reset` (ratelimit.go:179-183). -/
def SlidingWindowLimiter.Reset (swl : SlidingWindowLimiter) (key : String) : SlidingWindowLimiter :=
  { swl with windows := mapErase swl.windows key }

/-- Per-key fixed-window state (`type fixedWindow struct`, ratelimit.go:193-196). -/
structure fixedWindow where
  count : ℤ
  windowStart : ℤ
  deriving DecidableEq

/-- Go type `FixedWindowLimiter` (ratelimit.go:186-191). -/
structure FixedWindowLimiter where
  windows : String → Option fixedWindow
  requests : ℤ
  window : ℤ

/-- Constructor `NewFixedWindowLimiter` (ratelimit.go:199-205). -/
def NewFixedWindowLimiter (requests window : ℤ) : FixedWindowLimiter :=
  { windows := fun _ => none
    requests := requests
    window := window }

/-- Method `FixedWindowLimiter.Allow` (ratelimit.go:207-236): reset the window when
`now - windowStart >= window`, then admit while `count < requests`, else deny
with `waitTime = window - (now - windowStart)`. -/
def FixedWindowLimiter.Allow (fwl : FixedWindowLimiter) (key : String) (now : ℤ) :
    FixedWindowLimiter × Bool × ℤ :=
  let w := (fwl.windows key).getD { count := 0, windowStart := now }
  let w := if now - w.windowStart ≥ fwl.window then { count := 0, windowStart := now } else w
  if w.count < fwl.requests then
    ({ fwl with windows := mapInsert fwl.windows key { w with count := w.count + 1 } }, true, 0)
  else
    ({ fwl with windows := mapInsert fwl.windows key w },
     false, fwl.window - (now - w.windowStart))

/-- Method `FixedWindowLimiter.Reset` (ratelimit.go:238-242). -/
def FixedWindowLimiter.Reset (fwl : FixedWindowLimiter) (key : String) : FixedWindowLimiter :=
  { fwl with windows := mapErase fwl.windows key }

/-- An inbound HTTP request as far as this subsystem reads it: the header
list (in wire order; Go's `Header.Get` returns the first value for a name)
and `r.RemoteAddr`. -/
structure GoRequest where
  headers : List (String × String)
  remoteAddr : String

/-- Go's `r.Header.Get(name)`: the first value associated with the (already
canonicalized) header name, or `""` when absent. -/
def headerGet (headers : List (String × String)) (name : String) : String :=
  match headers.find? (fun p => p.1 = name) with
  | some p => p.2
  | none => ""

/-- Splits a character list at every occurrence of `c`. -/
def splitOnChar (c : Char) : List Char → List (List Char)
  | [] => [[]]
  | x :: xs =>
    let r := splitOnChar c xs
    if x = c then [] :: r
    else
      match r with
      | [] => [[x]]
      | g :: gs => (x :: g) :: gs

/-- One decimal field of a dotted-quad IPv4 address as `net.ParseIP` accepts
it: non-empty, all digits, no leading zero (except `"0"` itself), value at
most 255. -/
def validOctet (l : List Char) : Bool :=
  !l.isEmpty && l.all (fun c => c.isDigit)
    && (l.length == 1 || l.head? != some '0')
    && decide (l.foldl (fun acc c => acc * 10 + (c.toNat - 48)) 0 ≤ 255)

/-- Models `net.ParseIP` followed by `IP.String()` (ratelimit.go:270-271 and
analogues), for the IPv4 dotted-decimal grammar: Go rejects fields with
leading zeros, so on every accepted IPv4 string the canonical rendering is
the input itself and the composite returns its argument.  IPv6 textual forms
are outside the model and parse to `none`. -/
def goParseIP (s : String) : Option String :=
  match splitOnChar '.' s.data with
  | [a, b, c, d] =>
    if validOctet a && validOctet b && validOctet c && validOctet d then some s else none
  | _ => none

/-- Models `net.SplitHostPort` for unbracketed addresses: split at the one
colon separating host from port; fail when there is no colon or when the
bare host itself contains a colon.  Bracketed IPv6 literals are outside the
model (see `goParseIP`). -/
def goSplitHostPort (s : String) : Option (String × String) :=
  match splitOnChar ':' s.data with
  | [h, p] => some (String.mk h, String.mk p)
  | _ => none

/-- Function `extractIPFromRequest` (ratelimit.go:266-289): `X-Forwarded-For` when it
parses as an IP, else `X-Real-IP` when it parses, else the host part of
`RemoteAddr` when `SplitHostPort` succeeds and the host parses, else the raw
`RemoteAddr`. -/
def extractIPFromRequest (r : GoRequest) : String :=
  let xff := headerGet r.headers "X-Forwarded-For"
  match (if xff ≠ "" then goParseIP xff else none) with
  | some ip => ip
  | none =>
    let xri := headerGet r.headers "X-Real-IP"
    match (if xri ≠ "" then goParseIP xri else none) with
    | some ip => ip
    | none =>
      match goSplitHostPort r.remoteAddr with
      | some hp =>
        match goParseIP hp.1 with
        | some ip => ip
        | none => r.remoteAddr
      | none => r.remoteAddr

/-- Go type `Config` (ratelimit.go:31-40).  `Algorithm` and `KeyExtractor` are Go
string types, kept as `String` so the default branches of the `switch`
statements are representable. -/
structure Config where
  enabled : Bool
  requests : ℤ
  window : ℤ
  burst : ℤ
  algorithm : String
  keyExtractor : String
  headerName : String
  customKeyFunc : Option (GoRequest → String)

/-- Function `extractKey` (ratelimit.go:245-263). -/
def extractKey (r : GoRequest) (config : Config) : String :=
  if config.keyExtractor = "ip" then extractIPFromRequest r
  else if config.keyExtractor = "header" then
    let value := headerGet r.headers config.headerName
    if value = "" then extractIPFromRequest r else value
  else if config.keyExtractor = "custom" then
    match config.customKeyFunc with
    | some f => f r
    | none => extractIPFromRequest r
  else extractIPFromRequest r

/-- The dynamic type of the limiter chosen by `createLimiter`, standing in
for the Go `Limiter` interface value. -/
inductive LimiterState where
  | tb : TokenBucketLimiter → LimiterState
  | sw : SlidingWindowLimiter → LimiterState
  | fw : FixedWindowLimiter → LimiterState

/-- Interface dispatch of `Allow` over the limiter variants. -/
def LimiterState.Allow : LimiterState → String → ℤ → LimiterState × Bool × ℤ
  | .tb l, key, now => let r := l.Allow key now; (.tb r.1, r.2)
  | .sw l, key, now => let r := l.Allow key now; (.sw r.1, r.2)
  | .fw l, key, now => let r := l.Allow key now; (.fw r.1, r.2)

/-- Function `createLimiter` (ratelimit.go:292-303); unknown algorithm strings fall
back to a token bucket. -/
def createLimiter (config : Config) : LimiterState :=
  if config.algorithm = "token_bucket" then
    .tb (NewTokenBucketLimiter config.requests config.window config.burst)
  else if config.algorithm = "sliding_window" then
    .sw (NewSlidingWindowLimiter config.requests config.window)
  else if config.algorithm = "fixed_window" then
    .fw (NewFixedWindowLimiter config.requests config.window)
  else
    .tb (NewTokenBucketLimiter config.requests config.window config.burst)

/-- Strips the trailing zero digits from a fraction of `p` decimal digits,
returning the remaining digit count and value (helper for Go's
`time.Duration.String` fraction formatting). -/
def goStripZeros : Nat → Nat → Nat × Nat
  | 0, f => (0, f)
  | p + 1, f => if f % 10 = 0 then goStripZeros p (f / 10) else (p + 1, f)

/-- Renders `f` as exactly `p` decimal digits, zero-padded on the left. -/
def padNat (p : Nat) (f : Nat) : String :=
  let s := toString f
  String.mk (List.replicate (p - s.length) '0') ++ s

/-- Go's `fmtFrac`: the fractional part of `v` at `10^prec` resolution as a
`"."`-prefixed string with trailing zeros omitted (empty when zero), paired
with the integer part `v / 10^prec`. -/
def goFmtFrac (v : Nat) (prec : Nat) : String × Nat :=
  let frac := v % 10 ^ prec
  let rest := v / 10 ^ prec
  if frac = 0 then ("", rest)
  else
    let pf := goStripZeros prec frac
    ("." ++ padNat pf.1 pf.2, rest)

/-- Go's `time.Duration.String()` for a duration of `d` nanoseconds, used by
the middleware for the `X-RateLimit-Window` header and the 429 body. -/
def goDurationString (d : ℤ) : String :=
  if d = 0 then "0s"
  else
    let u := d.natAbs
    let sign := if d < 0 then "-" else ""
    if u < 1000000000 then
      if u < 1000 then sign ++ toString u ++ "ns"
      else if u < 1000000 then
        let fr := goFmtFrac u 3
        sign ++ toString fr.2 ++ fr.1 ++ "µs"
      else
        let fr := goFmtFrac u 6
        sign ++ toString fr.2 ++ fr.1 ++ "ms"
    else
      let fr := goFmtFrac u 9
      let secs := fr.2 % 60
      let mins := fr.2 / 60
      let base := toString secs ++ fr.1 ++ "s"
      if mins = 0 then sign ++ base
      else
        let base := toString (mins % 60) ++ "m" ++ base
        let hours := mins / 60
        if hours = 0 then sign ++ base else sign ++ toString hours ++ "h" ++ base

/-- The outcome of one request through the middleware: either a denial
response written by the middleware itself, or a pass-through to the
downstream handler with the informational headers already set. -/
inductive ServeResult where
  | denied : List (String × String) → ℤ → String → ServeResult
  | passed : List (String × String) → ServeResult
  deriving DecidableEq

/-- One request through the handler built by `Middleware` (ratelimit.go:
306-338) for an enabled configuration, plus the disabled pass-through.
`X-RateLimit-Retry-After` is `strconv.Itoa(int(waitTime.Seconds()))` — a
truncation toward zero of the wait in seconds; the 429 body comes from
`http.Error` with `fmt.Sprintf("Rate limit exceeded. Try again in %v",
waitTime)` (http.Error appends a newline). -/
def middlewareHandle (config : Config) (st : LimiterState) (r : GoRequest) (now : ℤ) :
    LimiterState × ServeResult :=
  if config.enabled = false then (st, .passed [])
  else
    let key := extractKey r config
    let res := st.Allow key now
    if res.2.1 = false then
      (res.1,
       .denied
         [("X-RateLimit-Limit", toString config.requests),
          ("X-RateLimit-Window", goDurationString config.window),
          ("X-RateLimit-Retry-After", toString (goTrunc ((res.2.2 : ℚ) / 1000000000)))]
         429
         ("Rate limit exceeded. Try again in " ++ goDurationString res.2.2 ++ "\n"))
    else
      (res.1,
       .passed
         [("X-RateLimit-Limit", toString config.requests),
          ("X-RateLimit-Window", goDurationString config.window)])

/-- Runs `n` successive `Allow` calls for `key`, all at the same instant
`now`, returning the final limiter and the list of admission results. -/
def tbAllowN (key : String) (now : ℤ) : Nat → TokenBucketLimiter → TokenBucketLimiter × List Bool
  | 0, l => (l, [])
  | n + 1, l =>
    let r := l.Allow key now
    let rest := tbAllowN key now n r.1
    (rest.1, r.2.1 :: rest.2)

/-- Analogue of `tbAllowN` for the sliding-window limiter. -/
def swAllowN (key : String) (now : ℤ) : Nat → SlidingWindowLimiter → SlidingWindowLimiter × List Bool
  | 0, l => (l, [])
  | n + 1, l =>
    let r := l.Allow key now
    let rest := swAllowN key now n r.1
    (rest.1, r.2.1 :: rest.2)

/-- Analogue of `tbAllowN` for the fixed-window limiter. -/
def fwAllowN (key : String) (now : ℤ) : Nat → FixedWindowLimiter → FixedWindowLimiter × List Bool
  | 0, l => (l, [])
  | n + 1, l =>
    let r := l.Allow key now
    let rest := fwAllowN key now n r.1
    (rest.1, r.2.1 :: rest.2)

/-- Configuration of the C3 denial scenario: token bucket, two requests per
second window, IP key extraction, middleware enabled. -/
def c3Config : Config :=
  { enabled := true, requests := 2, window := 1000000000, burst := 0,
    algorithm := "token_bucket", keyExtractor := "ip", headerName := "",
    customKeyFunc := none }

/-- Request of the C3 denial scenario: no forwarding headers, remote address
`127.0.0.1:9000`. -/
def c3Request : GoRequest := { headers := [], remoteAddr := "127.0.0.1:9000" }

@[simp] theorem mapInsert_self {α : Type} (m : String → Option α) (k : String) (v : α) :
    mapInsert m k v k = some v := by simp [mapInsert]

theorem mapInsert_ne {α : Type} (m : String → Option α) (k k' : String) (v : α)
    (h : k' ≠ k) : mapInsert m k v k' = m k' := by simp [mapInsert, h]

@[simp] theorem mapErase_self {α : Type} (m : String → Option α) (k : String) :
    mapErase m k k = none := by simp [mapErase]

theorem mapErase_ne {α : Type} (m : String → Option α) (k k' : String)
    (h : k' ≠ k) : mapErase m k k' = m k' := by simp [mapErase, h]

/-- C7: on each `FixedWindowLimiter.Allow` call for a key with existing state
`w`, the state is first rolled forward to `w1` (count 0, windowStart `now`)
exactly when `now - windowStart ≥ Window`; then if `count < Requests` the
call increments the count and returns `(true, 0)`, and otherwise it returns
`(false, Window - (now - windowStart))` leaving the rolled state in place. -/
theorem C7_fixed_window_allow (l : FixedWindowLimiter) (key : String) (now : ℤ)
    (w w1 : fixedWindow) (hw : l.windows key = some w)
    (hw1 : w1 = if now - w.windowStart ≥ l.window then ⟨0, now⟩ else w) :
    (w1.count < l.requests →
        l.Allow key now
          = ({ l with windows := mapInsert l.windows key ⟨w1.count + 1, w1.windowStart⟩ },
             true, 0))
    ∧ (l.requests ≤ w1.count →
        l.Allow key now
          = ({ l with windows := mapInsert l.windows key w1 },
             false, l.window - (now - w1.windowStart))) := by
  constructor
  · intro hc
    simp only [FixedWindowLimiter.Allow, hw, Option.getD_some, ← hw1, if_pos hc]
  · intro hc
    simp only [FixedWindowLimiter.Allow, hw, Option.getD_some, ← hw1,
      if_neg (not_lt.mpr hc)]

/-- Witness for C7 at a concrete fixed-window limiter: a key with count 0 in
a still-open window is admitted and its count becomes 1. -/
theorem C7_fixed_window_allow_witness :
    (FixedWindowLimiter.Allow ⟨mapInsert (fun _ => none) "k" ⟨0, 0⟩, 2, 1000000000⟩ "k" 5)
      = (⟨mapInsert (mapInsert (fun _ => none) "k" ⟨0, 0⟩) "k" ⟨1, 0⟩, 2, 1000000000⟩,
         true, 0) := by
  have h := (C7_fixed_window_allow
      ⟨mapInsert (fun _ => none) "k" ⟨0, 0⟩, 2, 1000000000⟩ "k" 5 ⟨0, 0⟩ ⟨0, 0⟩
      (by simp) (by norm_num)).1 (by norm_num)
  simpa using h

/-- C8: for every limiter variant, `Reset key` removes the key's state, the
state of every other key is unchanged, and the next `Allow` for that key
returns the same decision and wait time, and leaves the same per-key state,
as a first-ever call on a limiter with the same parameters and an empty
state map. -/
theorem C8_reset_removes_key (key : String) :
    (∀ (l : TokenBucketLimiter) (now : ℤ),
        (l.Reset key).buckets key = none
      ∧ (∀ k', k' ≠ key → (l.Reset key).buckets k' = l.buckets k')
      ∧ ((l.Reset key).Allow key now).2
          = (({ l with buckets := fun _ => none } : TokenBucketLimiter).Allow key now).2
      ∧ ((l.Reset key).Allow key now).1.buckets key
          = (({ l with buckets := fun _ => none } : TokenBucketLimiter).Allow key now).1.buckets key)
  ∧ (∀ (l : SlidingWindowLimiter) (now : ℤ),
        (l.Reset key).windows key = none
      ∧ (∀ k', k' ≠ key → (l.Reset key).windows k' = l.windows k')
      ∧ ((l.Reset key).Allow key now).2
          = (({ l with windows := fun _ => none } : SlidingWindowLimiter).Allow key now).2
      ∧ ((l.Reset key).Allow key now).1.windows key
          = (({ l with windows := fun _ => none } : SlidingWindowLimiter).Allow key now).1.windows key)
  ∧ (∀ (l : FixedWindowLimiter) (now : ℤ),
        (l.Reset key).windows key = none
      ∧ (∀ k', k' ≠ key → (l.Reset key).windows k' = l.windows k')
      ∧ ((l.Reset key).Allow key now).2
          = (({ l with windows := fun _ => none } : FixedWindowLimiter).Allow key now).2
      ∧ ((l.Reset key).Allow key now).1.windows key
          = (({ l with windows := fun _ => none } : FixedWindowLimiter).Allow key now).1.windows key) := by
  refine ⟨fun l now => ⟨?_, fun k' h => ?_, ?_, ?_⟩,
          fun l now => ⟨?_, fun k' h => ?_, ?_, ?_⟩,
          fun l now => ⟨?_, fun k' h => ?_, ?_, ?_⟩⟩
  · simp [TokenBucketLimiter.Reset]
  · exact mapErase_ne l.buckets key k' h
  · simp only [TokenBucketLimiter.Allow, refilledTokens, TokenBucketLimiter.Reset,
      mapErase_self]
    split_ifs <;> rfl
  · simp only [TokenBucketLimiter.Allow, refilledTokens, TokenBucketLimiter.Reset,
      mapErase_self]
    split_ifs <;> simp
  · simp [SlidingWindowLimiter.Reset]
  · exact mapErase_ne l.windows key k' h
  · simp only [SlidingWindowLimiter.Allow, SlidingWindowLimiter.Reset, mapErase_self]
    split_ifs <;> rfl
  · simp only [SlidingWindowLimiter.Allow, SlidingWindowLimiter.Reset, mapErase_self]
    split_ifs <;> simp
  · simp [FixedWindowLimiter.Reset]
  · exact mapErase_ne l.windows key k' h
  · simp only [FixedWindowLimiter.Allow, FixedWindowLimiter.Reset, mapErase_self]
    split_ifs <;> rfl
  · simp only [FixedWindowLimiter.Allow, FixedWindowLimiter.Reset, mapErase_self]
    split_ifs <;> simp

/-- C9: the very first `Allow` call for a previously-unseen key returns
`(true, 0)` on every limiter variant, given `Requests ≥ 1` (for the token
bucket this needs capacity ≥ 1, which the constructor guarantees for
`Requests ≥ 1` and `Burst ≥ 0`). -/
theorem C9_first_call_allowed :
    (∀ (requests window burst : ℤ), 1 ≤ requests → 0 ≤ burst →
        1 ≤ (NewTokenBucketLimiter requests window burst).capacity)
  ∧ (∀ (l : TokenBucketLimiter) (key : String) (now : ℤ),
        l.buckets key = none → 1 ≤ l.capacity → (l.Allow key now).2 = (true, 0))
  ∧ (∀ (l : SlidingWindowLimiter) (key : String) (now : ℤ),
        l.windows key = none → 1 ≤ l.requests → (l.Allow key now).2 = (true, 0))
  ∧ (∀ (l : FixedWindowLimiter) (key : String) (now : ℤ),
        l.windows key = none → 1 ≤ l.requests → (l.Allow key now).2 = (true, 0)) := by
  refine ⟨fun requests window burst h1 h2 => ?_, fun l key now hb hc => ?_,
          fun l key now hw hr => ?_, fun l key now hw hr => ?_⟩
  · simp only [NewTokenBucketLimiter]
    split_ifs <;> omega
  · have htok : refilledTokens l key now = (l.capacity : ℚ) := by
      simp [refilledTokens, hb]
    have hge : (1 : ℚ) ≤ refilledTokens l key now := by
      rw [htok]; exact_mod_cast hc
    simp only [TokenBucketLimiter.Allow, if_pos (ge_iff_le.mpr hge)]
  · have : ((([] : List ℤ).filter (fun ts => now - l.window < ts)).length : ℤ) < l.requests := by
      simp; omega
    simp only [SlidingWindowLimiter.Allow, hw, Option.getD_none]
    rw [if_pos this]
  · simp only [FixedWindowLimiter.Allow, hw, Option.getD_none, ite_self]
    have hc : ({ count := 0, windowStart := now } : fixedWindow).count < l.requests := by
      show (0 : ℤ) < l.requests
      omega
    rw [if_pos hc]

/-- Witness for C9: each variant admits the first call of a fresh key. -/
theorem C9_first_call_allowed_witness :
    ((NewTokenBucketLimiter 1 1000000000 0).Allow "k" 0).2 = (true, 0)
  ∧ ((NewSlidingWindowLimiter 1 1000000000).Allow "k" 0).2 = (true, 0)
  ∧ ((NewFixedWindowLimiter 1 1000000000).Allow "k" 0).2 = (true, 0) :=
  ⟨C9_first_call_allowed.2.1 (NewTokenBucketLimiter 1 1000000000 0) "k" 0 rfl
      (by norm_num [NewTokenBucketLimiter]),
   C9_first_call_allowed.2.2.1 (NewSlidingWindowLimiter 1 1000000000) "k" 0 rfl
      (by norm_num [NewSlidingWindowLimiter]),
   C9_first_call_allowed.2.2.2 (NewFixedWindowLimiter 1 1000000000) "k" 0 rfl
      (by norm_num [NewFixedWindowLimiter])⟩

/-- C10: a denied call consumes no quota.  For the sliding window, denial
stores exactly the pruned timestamp list (nothing appended); for the fixed
window with `Requests ≥ 1`, denial leaves the key's state untouched. -/
theorem C10_denied_consumes_no_quota :
    (∀ (l : SlidingWindowLimiter) (key : String) (now : ℤ) (w : slidingWindow),
        l.windows key = some w →
        (l.Allow key now).2.1 = false →
        (l.Allow key now).1.windows key
          = some ⟨w.timestamps.filter (fun ts => now - l.window < ts)⟩)
  ∧ (∀ (l : FixedWindowLimiter) (key : String) (now : ℤ) (w : fixedWindow),
        l.windows key = some w → 1 ≤ l.requests →
        (l.Allow key now).2.1 = false →
        (l.Allow key now).1.windows key = some w) := by
  constructor
  · intro l key now w hw hdeny
    simp only [SlidingWindowLimiter.Allow, hw, Option.getD_some] at hdeny ⊢
    split_ifs at hdeny ⊢ with h
    simp_all
  · intro l key now w hw hreq hdeny
    simp only [FixedWindowLimiter.Allow, hw, Option.getD_some] at hdeny ⊢
    by_cases h1 : now - w.windowStart ≥ l.window
    · rw [if_pos h1] at hdeny
      have hc : ({ count := 0, windowStart := now } : fixedWindow).count < l.requests := by
        show (0 : ℤ) < l.requests
        omega
      rw [if_pos hc] at hdeny
      simp at hdeny
    · rw [if_neg h1] at hdeny ⊢
      by_cases h2 : w.count < l.requests
      · rw [if_pos h2] at hdeny
        simp at hdeny
      · rw [if_neg h2]
        simp

/-- Witness for C10: concrete denied calls on both window limiters leave the
admitted state unchanged. -/
theorem C10_denied_consumes_no_quota_witness :
    ((SlidingWindowLimiter.Allow ⟨mapInsert (fun _ => none) "k" ⟨[0]⟩, 1, 1000000000⟩ "k" 0).1.windows "k"
        = some ⟨([0] : List ℤ).filter (fun ts => (0 : ℤ) - 1000000000 < ts)⟩)
  ∧ ((FixedWindowLimiter.Allow ⟨mapInsert (fun _ => none) "k" ⟨1, 0⟩, 1, 1000000000⟩ "k" 0).1.windows "k"
        = some ⟨1, 0⟩) :=
  ⟨C10_denied_consumes_no_quota.1 ⟨mapInsert (fun _ => none) "k" ⟨[0]⟩, 1, 1000000000⟩
      "k" 0 ⟨[0]⟩ (by simp) (by decide),
   C10_denied_consumes_no_quota.2 ⟨mapInsert (fun _ => none) "k" ⟨1, 0⟩, 1, 1000000000⟩
      "k" 0 ⟨1, 0⟩ (by simp) (by norm_num) (by decide)⟩

/-- C2 (amended): whenever the refilled token count is at least 1.0 the call
consumes exactly one token and returns `(true, 0)`; otherwise it returns
`(false, waitTime)` with `waitTime = max 1ms (trunc(((1.0 - tokens) / rate)
in milliseconds))` — a truncation toward zero, not a ceiling — and on every
denial the reported wait is strictly positive. -/
theorem C2_token_bucket_allow_and_wait (l : TokenBucketLimiter) (key : String) (now : ℤ) :
    (1 ≤ refilledTokens l key now →
        l.Allow key now
          = ({ l with buckets := mapInsert l.buckets key { tokens := refilledTokens l key now - 1, lastSeen := now } }, true, 0))
  ∧ (refilledTokens l key now < 1 →
        (l.Allow key now).2
          = (false,
             max 1000000 (goTrunc ((1 - refilledTokens l key now) / l.rate * 1000) * 1000000)))
  ∧ ((l.Allow key now).2.1 = false → 0 < (l.Allow key now).2.2) := by
  refine ⟨?_, ?_, ?_⟩
  · intro h
    simp only [TokenBucketLimiter.Allow, if_pos (ge_iff_le.mpr h)]
  · intro h
    simp only [TokenBucketLimiter.Allow, if_neg (not_le.mpr h)]
    rw [Prod.mk.injEq]
    refine ⟨rfl, ?_⟩
    generalize goTrunc ((1 - refilledTokens l key now) / l.rate * 1000) = t
    split_ifs with hw
    · exact (max_eq_left (by omega)).symm
    · exact (max_eq_right (by omega)).symm
  · intro hdeny
    simp only [TokenBucketLimiter.Allow] at hdeny ⊢
    split_ifs at hdeny ⊢ with h hw
    · norm_num
    · generalize hgen : goTrunc ((1 - refilledTokens l key now) / l.rate * 1000) = t at hw ⊢
      show 0 < t * 1000000
      omega

/-- Counterexample to C2 as stated: with `Requests = 3`, `Window = 2s`
(rate 1.5 tokens/s) and tokens exhausted, the denied call returns a wait of
666ms — `trunc(666.67ms)` — while the claim's formula
`ceil((1.0 - tokens)/rate)` (at the millisecond unit the code uses, with its
one-unit floor) predicts 667ms. -/
theorem C2_wait_formula_counterexample :
    ((tbAllowN "k" 0 3 (NewTokenBucketLimiter 3 2000000000 0)).1.Allow "k" 0).2
      = (false, 666000000)
  ∧ max 1000000
      (⌈(1 - 0 : ℚ) / ((3 : ℚ) / ((2000000000 : ℚ) / 1000000000)) * 1000⌉ * 1000000)
      = 667000000
  ∧ (666000000 : ℤ) ≠ 667000000 := by
  refine ⟨?_, ?_, by decide⟩
  · norm_num [tbAllowN, TokenBucketLimiter.Allow, refilledTokens, NewTokenBucketLimiter,
      mapInsert, goTrunc]
  · have h1 : ((1 - 0 : ℚ) / ((3 : ℚ) / ((2000000000 : ℚ) / 1000000000)) * 1000)
        = 2000 / 3 := by norm_num
    rw [h1]
    have h2 : ⌈(2000 / 3 : ℚ)⌉ = 667 := by
      rw [Int.ceil_eq_iff]
      norm_num
    rw [h2]
    omega

/-- Witness for C2 at a concrete limiter (1 request per second): the fresh
key's first call consumes the single token and the second call is denied
with a strictly positive wait. -/
theorem C2_token_bucket_allow_and_wait_witness :
    ((NewTokenBucketLimiter 1 1000000000 0).Allow "k" 0).2 = (true, 0)
  ∧ ((NewTokenBucketLimiter 1 1000000000 0).Allow "k" 0).1.buckets "k"
      = some { tokens := 0, lastSeen := 0 }
  ∧ 0 < (((NewTokenBucketLimiter 1 1000000000 0).Allow "k" 0).1.Allow "k" 0).2.2 := by
  have h := (C2_token_bucket_allow_and_wait (NewTokenBucketLimiter 1 1000000000 0) "k" 0).1
    (by norm_num [refilledTokens, NewTokenBucketLimiter])
  refine ⟨by rw [h], ?_, ?_⟩
  · rw [h]
    simp only [mapInsert_self, Option.some.injEq, tokenBucket.mk.injEq]
    norm_num [refilledTokens, NewTokenBucketLimiter]
  · exact (C2_token_bucket_allow_and_wait _ "k" 0).2.2
      (by norm_num [TokenBucketLimiter.Allow, refilledTokens, NewTokenBucketLimiter,
        mapInsert, goTrunc])

/-- Helper: the modelled `ParseIP`-then-`String()` composite returns its
input on success (Go's accepted IPv4 grammar has no non-canonical forms). -/
theorem goParseIP_some_eq {s t : String} (h : goParseIP s = some t) : t = s := by
  unfold goParseIP at h
  split at h
  · split_ifs at h
    exact (Option.some.inj h).symm
  · exact absurd h (by simp)

/-- Helper: the empty string never parses as an IP. -/
theorem goParseIP_empty : goParseIP "" = none := rfl

/-- Helper: the `xff != ""` / `xri != ""` guards of `extractIPFromRequest`
are redundant given that the empty string does not parse. -/
theorem parse_guard_eq (s : String) :
    (if s ≠ "" then goParseIP s else none) = goParseIP s := by
  by_cases h : s = ""
  · subst h
    rw [goParseIP_empty, if_neg (by simp)]
  · rw [if_pos h]

/-- Helper: `extractIPFromRequest` as a parse-result cascade. -/
theorem extractIPFromRequest_eq (r : GoRequest) :
    extractIPFromRequest r =
      (match goParseIP (headerGet r.headers "X-Forwarded-For") with
       | some ip => ip
       | none =>
         match goParseIP (headerGet r.headers "X-Real-IP") with
         | some ip => ip
         | none =>
           match goSplitHostPort r.remoteAddr with
           | some hp =>
             (match goParseIP hp.1 with
              | some ip => ip
              | none => r.remoteAddr)
           | none => r.remoteAddr) := by
  simp only [extractIPFromRequest]
  rw [parse_guard_eq, parse_guard_eq]

/-- C4: IP-mode key extraction returns, in order of preference, the first
`X-Forwarded-For` value when it parses as a valid IP, else the `X-Real-IP`
value when it parses, else the host part of the remote address (its port
stripped) when that parses, and otherwise the raw remote address string;
it always returns a string (the embedding is a total function). -/
theorem C4_ip_extraction_chain (r : GoRequest) :
    ((goParseIP (headerGet r.headers "X-Forwarded-For")).isSome = true →
        extractIPFromRequest r = headerGet r.headers "X-Forwarded-For")
  ∧ (goParseIP (headerGet r.headers "X-Forwarded-For") = none →
      (goParseIP (headerGet r.headers "X-Real-IP")).isSome = true →
        extractIPFromRequest r = headerGet r.headers "X-Real-IP")
  ∧ (goParseIP (headerGet r.headers "X-Forwarded-For") = none →
      goParseIP (headerGet r.headers "X-Real-IP") = none →
      ∀ hp : String × String, goSplitHostPort r.remoteAddr = some hp →
        ((goParseIP hp.1).isSome = true → extractIPFromRequest r = hp.1)
        ∧ (goParseIP hp.1 = none → extractIPFromRequest r = r.remoteAddr))
  ∧ (goParseIP (headerGet r.headers "X-Forwarded-For") = none →
      goParseIP (headerGet r.headers "X-Real-IP") = none →
      goSplitHostPort r.remoteAddr = none →
        extractIPFromRequest r = r.remoteAddr) := by
  refine ⟨?_, ?_, ?_, ?_⟩
  · intro h
    obtain ⟨ip, hip⟩ := Option.isSome_iff_exists.mp h
    simp only [extractIPFromRequest_eq, hip]
    exact goParseIP_some_eq hip
  · intro hxff h
    obtain ⟨ip, hip⟩ := Option.isSome_iff_exists.mp h
    simp only [extractIPFromRequest_eq, hxff, hip]
    exact goParseIP_some_eq hip
  · intro hxff hxri hp hsplit
    constructor
    · intro h
      obtain ⟨ip, hip⟩ := Option.isSome_iff_exists.mp h
      simp only [extractIPFromRequest_eq, hxff, hxri, hsplit, hip]
      exact goParseIP_some_eq hip
    · intro hnone
      simp only [extractIPFromRequest_eq, hxff, hxri, hsplit, hnone]
  · intro hxff hxri hsplit
    simp only [extractIPFromRequest_eq, hxff, hxri, hsplit]

/-- Witness for C4: with no forwarding headers and remote address
`10.0.0.1:80`, extraction returns the host with the port stripped. -/
theorem C4_ip_extraction_chain_witness :
    goParseIP (headerGet ([] : List (String × String)) "X-Forwarded-For") = none
  ∧ goParseIP (headerGet ([] : List (String × String)) "X-Real-IP") = none
  ∧ goSplitHostPort "10.0.0.1:80" = some ("10.0.0.1", "80")
  ∧ (goParseIP "10.0.0.1").isSome = true
  ∧ extractIPFromRequest ⟨[], "10.0.0.1:80"⟩ = "10.0.0.1" := by
  refine ⟨by decide, by decide, by decide, by decide, ?_⟩
  exact ((C4_ip_extraction_chain ⟨[], "10.0.0.1:80"⟩).2.2.1 (by decide) (by decide)
    ("10.0.0.1", "80") (by decide)).1 (by decide)

/-- C5: after every `SlidingWindowLimiter.Allow` call (starting from a state
whose per-key list respects the `Requests = N` bound), the key's stored
timestamp list has at most `N` entries, every retained timestamp lies within
`Window` of the call's `now`, and on denial the returned wait equals
`Window - (now - oldestRetainedTimestamp)` (the head of the stored list,
which is kept in arrival order). -/
theorem C5_sliding_window_invariants (l : SlidingWindowLimiter) (key : String) (now : ℤ)
    (N : ℕ) (hreq : l.requests = (N : ℤ)) (hW : 0 < l.window)
    (hlen : ∀ w, l.windows key = some w → w.timestamps.length ≤ N) :
    ∀ w', (l.Allow key now).1.windows key = some w' →
      w'.timestamps.length ≤ N
      ∧ (∀ t ∈ w'.timestamps, now - t < l.window)
      ∧ ((l.Allow key now).2.1 = false →
          (l.Allow key now).2.2 = l.window - (now - w'.timestamps.headD 0)) := by
  intro w' hw'
  obtain ⟨ts, hts, hlents⟩ :
      ∃ ts, (l.windows key).getD ⟨[]⟩ = ⟨ts⟩ ∧ ts.length ≤ N := by
    cases h : l.windows key with
    | none => exact ⟨[], by simp [h], by simp⟩
    | some w => exact ⟨w.timestamps, by simp [h], hlen w h⟩
  have hmem : ∀ t ∈ ts.filter (fun t => now - l.window < t), now - t < l.window := by
    intro t ht
    have := (List.mem_filter.mp ht).2
    simp only [decide_eq_true_eq] at this
    omega
  have hfle : (ts.filter (fun t => now - l.window < t)).length ≤ ts.length :=
    List.length_filter_le _ _
  simp only [SlidingWindowLimiter.Allow, hts] at hw' ⊢
  split_ifs at hw' ⊢ with hc
  · simp only [mapInsert_self, Option.some.injEq] at hw'
    subst hw'
    have hlt : (ts.filter (fun t => now - l.window < t)).length < N := by
      rw [hreq] at hc
      exact_mod_cast hc
    refine ⟨?_, ?_, ?_⟩
    · simp only [List.length_append, List.length_singleton]
      omega
    · intro t ht
      simp only [List.mem_append, List.mem_singleton] at ht
      rcases ht with ht | rfl
      · exact hmem t ht
      · omega
    · intro hfalse
      simp at hfalse
  · simp only [mapInsert_self, Option.some.injEq] at hw'
    subst hw'
    exact ⟨le_trans hfle hlents, hmem, fun _ => rfl⟩

/-- Witness for C5: one call on a fresh two-request sliding window stores a
single in-window timestamp. -/
theorem C5_sliding_window_invariants_witness :
    (({ timestamps := [0] } : slidingWindow).timestamps.length ≤ 2
      ∧ (∀ t ∈ ({ timestamps := [0] } : slidingWindow).timestamps,
          (0 : ℤ) - t < (NewSlidingWindowLimiter 2 1000000000).window)
      ∧ (((NewSlidingWindowLimiter 2 1000000000).Allow "k" 0).2.1 = false →
          ((NewSlidingWindowLimiter 2 1000000000).Allow "k" 0).2.2
            = (NewSlidingWindowLimiter 2 1000000000).window
                - ((0 : ℤ) - ({ timestamps := [0] } : slidingWindow).timestamps.headD 0))) := by
  have h := C5_sliding_window_invariants (NewSlidingWindowLimiter 2 1000000000) "k" 0 2
    rfl (by norm_num [NewSlidingWindowLimiter])
    (by intro w hw; simp [NewSlidingWindowLimiter] at hw)
    ⟨[0]⟩ (by decide)
  exact h

/-- Helper for C6: the refill clamp never produces more than the capacity. -/
theorem refilledTokens_le (l : TokenBucketLimiter) (key : String) (now : ℤ) :
    refilledTokens l key now ≤ (l.capacity : ℚ) := by
  simp only [refilledTokens]
  split_ifs with h
  · exact le_refl _
  · exact not_lt.mp h

/-- Helper for C6: refilling a non-negative bucket that was last touched in
the past, at a non-negative rate and capacity, keeps the tokens
non-negative. -/
theorem refilledTokens_nonneg (l : TokenBucketLimiter) (key : String) (now : ℤ)
    (hrate : 0 ≤ l.rate) (hcap : 0 ≤ l.capacity)
    (hb : ∀ b, l.buckets key = some b → 0 ≤ b.tokens ∧ b.lastSeen ≤ now) :
    0 ≤ refilledTokens l key now := by
  simp only [refilledTokens]
  have hcapq : (0 : ℚ) ≤ (l.capacity : ℚ) := by exact_mod_cast hcap
  cases h : l.buckets key with
  | none =>
    simp only [h, Option.getD_none]
    split_ifs with hcl
    · exact hcapq
    · simp only [sub_self, Int.cast_zero, zero_div, zero_mul, add_zero]
      exact hcapq
  | some b =>
    simp only [h, Option.getD_some]
    have hraw : 0 ≤ b.tokens + ((now - b.lastSeen : ℤ) : ℚ) / 1000000000 * l.rate := by
      have h1 : (0 : ℚ) ≤ ((now - b.lastSeen : ℤ) : ℚ) := by
        exact_mod_cast sub_nonneg.mpr (hb b h).2
      have h2 : (0 : ℚ) ≤ ((now - b.lastSeen : ℤ) : ℚ) / 1000000000 * l.rate :=
        mul_nonneg (div_nonneg h1 (by norm_num)) hrate
      linarith [(hb b h).1]
    split_ifs with hcl
    · exact hcapq
    · exact hraw

/-- C6: the constructor sets `capacity = Burst` when `Burst > 0` and
`Requests` otherwise, and `rate = Requests / Window` in tokens per second;
and for any call on a state whose key-bucket satisfies the invariant
`0 ≤ tokens ≤ capacity` (touched no later than `now`), the capacity is
unchanged and the key's new bucket again satisfies `0 ≤ tokens ≤ capacity`;
moreover on a denial (no consumption) the tokens did not decrease and equal
the capacity-clamped time-proportional refill of the old value. -/
theorem C6_token_bucket_invariants :
    (∀ requests window burst : ℤ,
        (NewTokenBucketLimiter requests window burst).capacity
          = (if 0 < burst then burst else requests)
      ∧ (NewTokenBucketLimiter requests window burst).rate
          = (requests : ℚ) / ((window : ℚ) / 1000000000))
  ∧ (∀ (l : TokenBucketLimiter) (key : String) (now : ℤ),
      0 ≤ l.rate → 0 ≤ l.capacity →
      (∀ b, l.buckets key = some b →
          0 ≤ b.tokens ∧ b.tokens ≤ (l.capacity : ℚ) ∧ b.lastSeen ≤ now) →
      ((l.Allow key now).1.capacity = l.capacity
      ∧ ∀ b', (l.Allow key now).1.buckets key = some b' →
          (0 ≤ b'.tokens ∧ b'.tokens ≤ (l.capacity : ℚ))
          ∧ ((l.Allow key now).2.1 = false → ∀ b, l.buckets key = some b →
              b.tokens ≤ b'.tokens
              ∧ b'.tokens = min (l.capacity : ℚ)
                  (b.tokens + ((now - b.lastSeen : ℤ) : ℚ) / 1000000000 * l.rate)))) := by
  constructor
  · intro requests window burst
    refine ⟨?_, rfl⟩
    simp only [NewTokenBucketLimiter]
    by_cases h : burst ≤ 0
    · rw [if_pos h, if_neg (by omega)]
    · rw [if_neg h, if_pos (by omega)]
  · intro l key now hrate hcap hb
    have hle := refilledTokens_le l key now
    have hge := refilledTokens_nonneg l key now hrate hcap
      (fun b h => ⟨(hb b h).1, (hb b h).2.2⟩)
    constructor
    · simp only [TokenBucketLimiter.Allow]
      split_ifs <;> rfl
    · intro b' hb'
      simp only [TokenBucketLimiter.Allow] at hb' ⊢
      split_ifs at hb' ⊢ with hc hw
      · simp only [mapInsert_self, Option.some.injEq] at hb'
        subst hb'
        dsimp only
        refine ⟨⟨by linarith, by linarith⟩, ?_⟩
        intro hfalse
        simp at hfalse
      all_goals
        simp only [mapInsert_self, Option.some.injEq] at hb'
        subst hb'
        dsimp only
        refine ⟨⟨hge, hle⟩, ?_⟩
        intro _ b hbk
        have hbt := hb b hbk
        have hmin : refilledTokens l key now
            = min (l.capacity : ℚ)
                (b.tokens + ((now - b.lastSeen : ℤ) : ℚ) / 1000000000 * l.rate) := by
          simp only [refilledTokens, hbk, Option.getD_some]
          split_ifs with h
          · exact (min_eq_left h.le).symm
          · exact (min_eq_right (not_lt.mp h)).symm
        have hrefle : 0 ≤ ((now - b.lastSeen : ℤ) : ℚ) / 1000000000 * l.rate := by
          have h1 : (0 : ℚ) ≤ ((now - b.lastSeen : ℤ) : ℚ) := by
            exact_mod_cast sub_nonneg.mpr hbt.2.2
          exact mul_nonneg (div_nonneg h1 (by norm_num)) hrate
        refine ⟨?_, hmin⟩
        rw [hmin]
        exact le_min hbt.2.1 (by linarith)

/-- Witness for C6: a two-token bucket admits one call with the capacity
unchanged and the stored bucket inside the invariant bounds. -/
theorem C6_token_bucket_invariants_witness :
    ((NewTokenBucketLimiter 2 1000000000 0).Allow "k" 0).1.capacity
        = (NewTokenBucketLimiter 2 1000000000 0).capacity
  ∧ (0 ≤ ({ tokens := 1, lastSeen := 0 } : tokenBucket).tokens
      ∧ ({ tokens := 1, lastSeen := 0 } : tokenBucket).tokens
          ≤ ((NewTokenBucketLimiter 2 1000000000 0).capacity : ℚ)) := by
  have h := C6_token_bucket_invariants.2 (NewTokenBucketLimiter 2 1000000000 0) "k" 0
    (by norm_num [NewTokenBucketLimiter])
    (by norm_num [NewTokenBucketLimiter])
    (by intro b hb; simp [NewTokenBucketLimiter] at hb)
  refine ⟨h.1, (h.2 { tokens := 1, lastSeen := 0 } ?_).1⟩
  norm_num [TokenBucketLimiter.Allow, refilledTokens, NewTokenBucketLimiter, mapInsert]

/-- Helper for C1: with zero elapsed time the refill leaves the token count
unchanged (given it does not exceed the capacity). -/
theorem refilledTokens_same_now (l : TokenBucketLimiter) (key : String) (now : ℤ) (t : ℚ)
    (hb : (l.buckets key).getD { tokens := (l.capacity : ℚ), lastSeen := now }
        = { tokens := t, lastSeen := now })
    (hle : t ≤ (l.capacity : ℚ)) :
    refilledTokens l key now = t := by
  simp only [refilledTokens, hb, sub_self, Int.cast_zero, zero_div, zero_mul, add_zero]
  exact if_neg (not_lt.mpr hle)

/-- Helper for C1: a zero-elapsed call on a bucket holding at least one token
is admitted and consumes one token. -/
theorem tb_step_true (l : TokenBucketLimiter) (key : String) (now : ℤ) (t : ℚ)
    (hb : (l.buckets key).getD { tokens := (l.capacity : ℚ), lastSeen := now }
        = { tokens := t, lastSeen := now })
    (hle : t ≤ (l.capacity : ℚ)) (h1 : 1 ≤ t) :
    l.Allow key now
      = ({ l with buckets := mapInsert l.buckets key { tokens := t - 1, lastSeen := now } },
         true, 0) := by
  have hr := refilledTokens_same_now l key now t hb hle
  simp only [TokenBucketLimiter.Allow, hr, if_pos (ge_iff_le.mpr h1)]

/-- Helper for C1: a zero-elapsed call on a bucket holding less than one
token is denied. -/
theorem tb_step_false (l : TokenBucketLimiter) (key : String) (now : ℤ) (t : ℚ)
    (hb : (l.buckets key).getD { tokens := (l.capacity : ℚ), lastSeen := now }
        = { tokens := t, lastSeen := now })
    (hle : t ≤ (l.capacity : ℚ)) (hlt : t < 1) :
    (l.Allow key now).2.1 = false := by
  have hr := refilledTokens_same_now l key now t hb hle
  simp only [TokenBucketLimiter.Allow, hr, if_neg (not_le.mpr hlt)]

/-- Helper for C1: starting from a bucket holding exactly `n` tokens at the
call instant, `n + 1` zero-elapsed calls admit the first `n` and deny the
last. -/
theorem tb_run_exact (key : String) (now : ℤ) :
    ∀ (n : ℕ) (l : TokenBucketLimiter) (t : ℚ),
      (l.buckets key).getD { tokens := (l.capacity : ℚ), lastSeen := now }
          = { tokens := t, lastSeen := now } →
      t ≤ (l.capacity : ℚ) → t = (n : ℚ) →
      (tbAllowN key now (n + 1) l).2 = List.replicate n true ++ [false] := by
  intro n
  induction n with
  | zero =>
    intro l t hb hle ht
    have hfalse := tb_step_false l key now t hb hle (by rw [ht]; norm_num)
    simp [tbAllowN, hfalse]
  | succ n ih =>
    intro l t hb hle ht
    have h1 : (1 : ℚ) ≤ t := by
      rw [ht]
      exact_mod_cast Nat.succ_le_succ (Nat.zero_le n)
    have hstep := tb_step_true l key now t hb hle h1
    have ih' := ih
      { l with buckets := mapInsert l.buckets key { tokens := t - 1, lastSeen := now } }
      (t - 1) (by simp) (by dsimp only; linarith)
      (by rw [ht]; push_cast; ring)
    have hunfold : tbAllowN key now (n + 1 + 1) l
        = ((tbAllowN key now (n + 1) (l.Allow key now).1).1,
           (l.Allow key now).2.1 :: (tbAllowN key now (n + 1) (l.Allow key now).1).2) := rfl
    rw [hunfold, hstep]
    dsimp only
    rw [ih']
    simp [List.replicate_succ]

/-- Helper for C1: pruning at instant `now` keeps every timestamp equal to
`now` when the window is positive. -/
theorem sw_filter_replicate (now W : ℤ) (hW : 0 < W) (k : ℕ) :
    (List.replicate k now).filter (fun ts => now - W < ts) = List.replicate k now :=
  List.filter_eq_self.mpr (fun a ha => by
    rw [List.eq_of_mem_replicate ha]
    exact decide_eq_true (by omega))

/-- Helper for C1: one zero-elapsed sliding-window call on a key holding `k`
copies of `now` admits exactly when `k < Requests`, appending one more copy,
and is denied otherwise. -/
theorem sw_step (l : SlidingWindowLimiter) (key : String) (now : ℤ) (k : ℕ)
    (hw : (l.windows key).getD { timestamps := [] }
        = { timestamps := List.replicate k now })
    (hW : 0 < l.window) :
    ((k : ℤ) < l.requests →
      l.Allow key now
        = ({ l with windows := mapInsert l.windows key { timestamps := List.replicate (k + 1) now } },
           true, 0))
    ∧ (l.requests ≤ (k : ℤ) → (l.Allow key now).2.1 = false) := by
  have hfil := sw_filter_replicate now l.window hW k
  constructor
  · intro hc
    simp only [SlidingWindowLimiter.Allow, hw, hfil, List.length_replicate]
    rw [if_pos hc, List.replicate_succ' k now]
  · intro hc
    simp only [SlidingWindowLimiter.Allow, hw, hfil, List.length_replicate]
    rw [if_neg (not_lt.mpr hc)]

/-- Helper for C1: starting from `k` in-window timestamps with
`k + n = Requests`, `n + 1` zero-elapsed calls admit `n` and deny the last. -/
theorem sw_run_exact (key : String) (now : ℤ) :
    ∀ (n : ℕ) (l : SlidingWindowLimiter) (k : ℕ),
      (l.windows key).getD { timestamps := [] }
          = { timestamps := List.replicate k now } →
      0 < l.window → (k : ℤ) + (n : ℤ) = l.requests →
      (swAllowN key now (n + 1) l).2 = List.replicate n true ++ [false] := by
  intro n
  induction n with
  | zero =>
    intro l k hw hW hk
    have hfalse := (sw_step l key now k hw hW).2 (by omega)
    simp [swAllowN, hfalse]
  | succ n ih =>
    intro l k hw hW hk
    have hstep := (sw_step l key now k hw hW).1 (by push_cast at hk ⊢; omega)
    have ih' := ih
      { l with windows := mapInsert l.windows key { timestamps := List.replicate (k + 1) now } }
      (k + 1) (by simp) hW (by push_cast at hk ⊢; omega)
    have hunfold : swAllowN key now (n + 1 + 1) l
        = ((swAllowN key now (n + 1) (l.Allow key now).1).1,
           (l.Allow key now).2.1 :: (swAllowN key now (n + 1) (l.Allow key now).1).2) := rfl
    rw [hunfold, hstep]
    dsimp only
    rw [ih']
    simp [List.replicate_succ]

/-- Helper for C1: one zero-elapsed fixed-window call on a key whose window
started at `now` admits exactly when `count < Requests`. -/
theorem fw_step (l : FixedWindowLimiter) (key : String) (now : ℤ) (c : ℤ)
    (hw : (l.windows key).getD { count := 0, windowStart := now }
        = { count := c, windowStart := now })
    (hW : 0 < l.window) :
    (c < l.requests →
      l.Allow key now
        = ({ l with windows := mapInsert l.windows key { count := c + 1, windowStart := now } },
           true, 0))
    ∧ (l.requests ≤ c → (l.Allow key now).2.1 = false) := by
  have hnoreset : ¬ now - now ≥ l.window := by omega
  constructor
  · intro hc
    simp only [FixedWindowLimiter.Allow, hw]
    rw [if_neg hnoreset, if_pos hc]
  · intro hc
    simp only [FixedWindowLimiter.Allow, hw]
    rw [if_neg hnoreset, if_neg (not_lt.mpr hc)]

/-- Helper for C1: starting from count `c` in a window opened at `now` with
`c + n = Requests`, `n + 1` zero-elapsed calls admit `n` and deny the last. -/
theorem fw_run_exact (key : String) (now : ℤ) :
    ∀ (n : ℕ) (l : FixedWindowLimiter) (c : ℤ),
      (l.windows key).getD { count := 0, windowStart := now }
          = { count := c, windowStart := now } →
      0 < l.window → c + (n : ℤ) = l.requests →
      (fwAllowN key now (n + 1) l).2 = List.replicate n true ++ [false] := by
  intro n
  induction n with
  | zero =>
    intro l c hw hW hc
    have hfalse := (fw_step l key now c hw hW).2 (by omega)
    simp [fwAllowN, hfalse]
  | succ n ih =>
    intro l c hw hW hc
    have hstep := (fw_step l key now c hw hW).1 (by push_cast at hc ⊢; omega)
    have ih' := ih
      { l with windows := mapInsert l.windows key { count := c + 1, windowStart := now } }
      (c + 1) (by simp) hW (by push_cast at hc ⊢; omega)
    have hunfold : fwAllowN key now (n + 1 + 1) l
        = ((fwAllowN key now (n + 1) (l.Allow key now).1).1,
           (l.Allow key now).2.1 :: (fwAllowN key now (n + 1) (l.Allow key now).1).2) := rfl
    rw [hunfold, hstep]
    dsimp only
    rw [ih']
    simp [List.replicate_succ]

/-- C1: for each variant — token bucket with `Burst ≤ 0`, sliding window,
fixed window — configured with `Requests = N > 0` and `Window = W > 0`,
`N + 1` `Allow` calls for one key with zero elapsed time admit the first
`N` and deny the `(N+1)`-th. -/
theorem C1_rapid_burst_boundary (N : ℕ) (_hN : 0 < N) (W : ℤ) (hW : 0 < W)
    (burst : ℤ) (hburst : burst ≤ 0) (key : String) (now : ℤ) :
    (tbAllowN key now (N + 1) (NewTokenBucketLimiter (N : ℤ) W burst)).2
        = List.replicate N true ++ [false]
  ∧ (swAllowN key now (N + 1) (NewSlidingWindowLimiter (N : ℤ) W)).2
        = List.replicate N true ++ [false]
  ∧ (fwAllowN key now (N + 1) (NewFixedWindowLimiter (N : ℤ) W)).2
        = List.replicate N true ++ [false] := by
  refine ⟨?_, ?_, ?_⟩
  · apply tb_run_exact key now N (NewTokenBucketLimiter (N : ℤ) W burst) ((N : ℚ))
    · simp [NewTokenBucketLimiter, if_pos hburst]
    · simp [NewTokenBucketLimiter, if_pos hburst]
    · rfl
  · apply sw_run_exact key now N (NewSlidingWindowLimiter (N : ℤ) W) 0
    · simp [NewSlidingWindowLimiter]
    · exact hW
    · simp [NewSlidingWindowLimiter]
  · apply fw_run_exact key now N (NewFixedWindowLimiter (N : ℤ) W) 0
    · simp [NewFixedWindowLimiter]
    · exact hW
    · simp [NewFixedWindowLimiter]

/-- Witness for C1: with one request per second, the second zero-elapsed
call is denied on every variant. -/
theorem C1_rapid_burst_boundary_witness :
    (tbAllowN "k" 0 2 (NewTokenBucketLimiter 1 1000000000 0)).2 = [true, false]
  ∧ (swAllowN "k" 0 2 (NewSlidingWindowLimiter 1 1000000000)).2 = [true, false]
  ∧ (fwAllowN "k" 0 2 (NewFixedWindowLimiter 1 1000000000)).2 = [true, false] := by
  have h := C1_rapid_burst_boundary 1 (by norm_num) 1000000000 (by norm_num) 0 (by norm_num)
    "k" 0
  simpa using h

/-- C3 (amended): every request denied by the enabled middleware is answered
directly (the downstream handler is never invoked) with status 429, headers
`X-RateLimit-Limit`, `X-RateLimit-Window`, and `X-RateLimit-Retry-After`
whose value is the limiter's wait time in seconds truncated toward zero
(not rounded up), and a plain-text body naming the wait duration. -/
theorem C3_denied_response (config : Config) (st : LimiterState) (r : GoRequest) (now : ℤ)
    (hen : config.enabled = true)
    (hdeny : (st.Allow (extractKey r config) now).2.1 = false) :
    middlewareHandle config st r now
      = ((st.Allow (extractKey r config) now).1,
         ServeResult.denied
           [("X-RateLimit-Limit", toString config.requests),
            ("X-RateLimit-Window", goDurationString config.window),
            ("X-RateLimit-Retry-After",
              toString (goTrunc (((st.Allow (extractKey r config) now).2.2 : ℚ) / 1000000000)))]
           429
           ("Rate limit exceeded. Try again in "
              ++ goDurationString (st.Allow (extractKey r config) now).2.2 ++ "\n")) := by
  simp only [middlewareHandle, hen]
  rw [if_neg (by simp), if_pos hdeny]

/-- Counterexample to C3 as stated: under `c3Config` (token bucket, 2
requests per 1s window) the third immediate request from `127.0.0.1` is
denied with a 500ms wait, and the response carries
`X-RateLimit-Retry-After: 0` — `strconv.Itoa(int(waitTime.Seconds()))`
truncates 0.5 to 0 — while the claim's `ceil(waitTime in seconds)` is 1. -/
theorem C3_retry_after_counterexample :
    (middlewareHandle c3Config
        (middlewareHandle c3Config
          (middlewareHandle c3Config (createLimiter c3Config) c3Request 0).1 c3Request 0).1
        c3Request 0).2
      = ServeResult.denied
          [("X-RateLimit-Limit", "2"), ("X-RateLimit-Window", "1s"),
           ("X-RateLimit-Retry-After", "0")]
          429 "Rate limit exceeded. Try again in 500ms\n"
  ∧ toString ⌈((500000000 : ℤ) : ℚ) / 1000000000⌉ = "1"
  ∧ ("0" : String) ≠ "1" := by
  refine ⟨?_, ?_, by decide⟩
  · have hkey : extractKey c3Request c3Config = "127.0.0.1" := by decide
    have hcl : createLimiter c3Config = .tb (NewTokenBucketLimiter 2 1000000000 0) := rfl
    have hen : c3Config.enabled = true := rfl
    have hreq : c3Config.requests = 2 := rfl
    have hwin : c3Config.window = 1000000000 := rfl
    have hg1 : goDurationString 1000000000 = "1s" := by decide
    have hg2 : goDurationString 500000000 = "500ms" := by decide
    have hts2 : toString (2 : ℤ) = "2" := rfl
    norm_num [middlewareHandle, hcl, hen, hreq, hwin, hkey, hg1, hg2, hts2,
      LimiterState.Allow, TokenBucketLimiter.Allow, refilledTokens, NewTokenBucketLimiter,
      mapInsert, goTrunc]
    exact ⟨rfl, rfl⟩
  · have hc : ⌈((500000000 : ℤ) : ℚ) / 1000000000⌉ = 1 := by
      rw [Int.ceil_eq_iff]
      norm_num
    rw [hc]
    rfl

/-- Witness for C3 at a concrete denial: a fixed-window limiter whose quota
for `127.0.0.1` is already spent produces exactly the denial response shape
of the amended claim. -/
theorem C3_denied_response_witness :
    c3Config.enabled = true
  ∧ ((LimiterState.fw ⟨mapInsert (fun _ => none) "127.0.0.1" ⟨1, 0⟩, 1, 1000000000⟩).Allow
        (extractKey c3Request c3Config) 0).2.1 = false
  ∧ middlewareHandle c3Config
      (LimiterState.fw ⟨mapInsert (fun _ => none) "127.0.0.1" ⟨1, 0⟩, 1, 1000000000⟩)
      c3Request 0
      = (((LimiterState.fw ⟨mapInsert (fun _ => none) "127.0.0.1" ⟨1, 0⟩, 1, 1000000000⟩).Allow
            (extractKey c3Request c3Config) 0).1,
         ServeResult.denied
           [("X-RateLimit-Limit", toString c3Config.requests),
            ("X-RateLimit-Window", goDurationString c3Config.window),
            ("X-RateLimit-Retry-After",
              toString (goTrunc
                ((((LimiterState.fw ⟨mapInsert (fun _ => none) "127.0.0.1" ⟨1, 0⟩, 1,
                      1000000000⟩).Allow (extractKey c3Request c3Config) 0).2.2 : ℚ)
                  / 1000000000)))]
           429
           ("Rate limit exceeded. Try again in "
              ++ goDurationString
                  (((LimiterState.fw ⟨mapInsert (fun _ => none) "127.0.0.1" ⟨1, 0⟩, 1,
                      1000000000⟩).Allow (extractKey c3Request c3Config) 0).2.2) ++ "\n")) :=
  ⟨rfl, by decide,
   C3_denied_response c3Config
     (LimiterState.fw ⟨mapInsert (fun _ => none) "127.0.0.1" ⟨1, 0⟩, 1, 1000000000⟩)
     c3Request 0 rfl (by decide)⟩

end RateLimit
